import Mathlib

/-!
Verification of the Selective-Repeat ARQ engine of this repository.

The definitions below are a shallow embedding of the two SR drafts in the
repository: `src/unnamed/part_000` (the clean variant, embedded as `A_output`,
`A_input`, `A_timerinterrupt`, `A_init`, `B_input`, `B_init`) and, where it
differs materially, `src/sr.c` (embedded as `B_input_src`, `B_init_src`).
C `int` fields of packets are modelled as `Int`; the sender's `windowcount`
is `Int` (it is decremented by the window-slide loop and the C code lets it
go negative); `send_base`, `A_nextseqnum`, `rcv_base` and `B_nextseqnum`
are `Nat` (the C code only ever assigns them non-negative values of the
form `x % SEQSPACE`, and `%` on non-negative C ints agrees with `Nat.mod`).
`WINDOWSIZE = 6` and `SEQSPACE = 12` are inlined as the literals 6 and 12,
exactly as fixed by the `#define`s.

Array indexing `a[e % WINDOWSIZE]` is modelled by `nidx`/`idx`; for a
negative C int `e` the C program would index out of bounds (undefined
behaviour), the model uses the Euclidean remainder there, and every theorem
that touches indexing carries hypotheses keeping the index non-negative.

The C `while` loops in `A_input` (window slide) and `B_input` (in-order
drain) clear the flag that their own guard reads; since the flag array has
6 cells and the loop body never sets a flag, the guard must fail within 6
iterations.  The loops are therefore embedded with a fuel argument
instantiated at 6, which never runs out before the guard fails.
-/

set_option maxHeartbeats 1000000

/-- A network packet, `struct pkt` of `src/sr.h`: 20 payload chars modelled
as 20 integers. -/
structure Pkt where
  seqnum : Int
  acknum : Int
  payload : Fin 20 → Int
  checksum : Int
deriving DecidableEq

/-- An application message, `struct msg`. -/
structure Msg where
  data : Fin 20 → Int
deriving DecidableEq

/-- `ComputeChecksum` of `src/unnamed/part_000` lines 17-28 (identical in
`src/sr.c`): seqnum + acknum + sum of the payload bytes. -/
def ComputeChecksum (p : Pkt) : Int :=
  p.seqnum + p.acknum + ∑ i : Fin 20, p.payload i

/-- `IsCorrupted` of `src/unnamed/part_000` lines 30-36: the stored checksum
disagrees with the recomputed one. -/
def IsCorrupted (p : Pkt) : Bool :=
  if p.checksum = ComputeChecksum p then false else true

/-- Build a packet whose checksum field is computed from the other three
fields, the way both `A_output` and `B_input` construct their packets. -/
def mkpkt (seq ack : Int) (pay : Fin 20 → Int) : Pkt :=
  { seqnum := seq, acknum := ack, payload := pay,
    checksum := ComputeChecksum { seqnum := seq, acknum := ack, payload := pay, checksum := 0 } }

theorem mkpkt_not_corrupted (seq ack : Int) (pay : Fin 20 → Int) :
    IsCorrupted (mkpkt seq ack pay) = false := by
  simp [IsCorrupted, mkpkt, ComputeChecksum]

/-- Index into a 6-cell window array by a non-negative `Nat` expression,
C's `x % WINDOWSIZE`. -/
def nidx (n : Nat) : Fin 6 := ⟨n % 6, by omega⟩

/-- Index into a 6-cell window array by a C `int` expression
(`packet.acknum % WINDOWSIZE`, `packet.seqnum % WINDOWSIZE`).  For a
negative argument the C program has undefined behaviour; the model takes
the Euclidean remainder. -/
def idx (a : Int) : Fin 6 := ⟨(a % 6).toNat, by omega⟩

/-- The wraparound window-containment test,
`src/unnamed/part_000` lines 109-112 (sender, on `packet.acknum`) and
lines 223-227 (receiver, on `packet.seqnum`); the same expression appears
at `src/sr.c` lines 126-129 and 243-250. -/
def in_window (base : Nat) (x : Int) : Bool :=
  let last : Nat := (base + 6 - 1) % 12
  (decide (base ≤ last) && decide ((base : Int) ≤ x) && decide (x ≤ (last : Int))) ||
  (decide (last < base) && (decide ((base : Int) ≤ x) || decide (x ≤ (last : Int))))

/-- For an in-range base and in-range value, the C containment test accepts
exactly the 6 sequence numbers `(base + k) % 12`, `k < 6`. -/
theorem in_window_iff (base : Nat) (x : Int) (hb : base < 12) (h0 : 0 ≤ x) (hx : x < 12) :
    in_window base x = true ↔ ∃ k : Nat, k < 6 ∧ x = (((base + k) % 12 : Nat) : Int) := by
  simp only [in_window, Bool.or_eq_true, Bool.and_eq_true, decide_eq_true_eq]
  constructor
  · intro h
    refine ⟨(x.toNat + 12 - base) % 12, ?_, ?_⟩ <;> omega
  · rintro ⟨k, hk, rfl⟩
    omega

theorem in_window_self (base : Nat) (hb : base < 12) :
    in_window base (base : Int) = true := by
  rw [in_window_iff base _ hb (by omega) (by omega)]
  exact ⟨0, by omega, by omega⟩

/-- Number of set flags in a 6-cell boolean window array. -/
def countTrue (fl : Fin 6 → Bool) : Nat :=
  (Finset.univ.filter fun j => fl j = true).card

theorem countTrue_le_six (fl : Fin 6 → Bool) : countTrue fl ≤ 6 := by
  calc countTrue fl ≤ Finset.univ.card := Finset.card_filter_le _ _
  _ = 6 := by simp

theorem countTrue_eq_zero_iff (fl : Fin 6 → Bool) :
    countTrue fl = 0 ↔ ∀ j, fl j = false := by
  constructor
  · intro h j
    by_contra hj
    have hj' : fl j = true := by
      cases hfl : fl j
      · exact absurd hfl hj
      · rfl
    have : 0 < countTrue fl := Finset.card_pos.mpr ⟨j, by simp [hj']⟩
    omega
  · intro h
    unfold countTrue
    rw [Finset.card_eq_zero]
    ext j
    simp [h j]

theorem countTrue_update_false (fl : Fin 6 → Bool) (i : Fin 6) (h : fl i = true) :
    countTrue (Function.update fl i false) + 1 = countTrue fl := by
  classical
  have hrw : (Finset.univ.filter fun j => Function.update fl i false j = true)
      = (Finset.univ.filter fun j => fl j = true).erase i := by
    ext j
    by_cases hji : j = i <;>
      simp [Function.update, hji, h]
  rw [countTrue, hrw, Finset.card_erase_of_mem (by simp [countTrue, h]),
    ← countTrue]
  have : 0 < countTrue fl := Finset.card_pos.mpr ⟨i, by simp [h]⟩
  omega

/-- The flag array after the first `k` iterations of a window-walking loop
that starts at `base` and clears one slot per iteration. -/
def clearRun (fl : Fin 6 → Bool) (base : Nat) : Nat → (Fin 6 → Bool)
  | 0 => fl
  | k + 1 => clearRun (Function.update fl (nidx base) false) ((base + 1) % 12) k

theorem clearRun_false_mono (fl : Fin 6 → Bool) (base : Nat) (k : Nat) (j : Fin 6)
    (h : fl j = false) : clearRun fl base k j = false := by
  induction k generalizing fl base with
  | zero => exact h
  | succ k ih =>
      refine ih _ _ ?_
      by_cases hji : j = nidx base <;> simp [Function.update, hji, h]

theorem clearRun_cleared (fl : Fin 6 → Bool) (base : Nat) (k : Nat) (j : Nat)
    (hj : j < k) : clearRun fl base k (nidx (base + j)) = false := by
  induction k generalizing fl base j with
  | zero => omega
  | succ k ih =>
      rcases Nat.eq_zero_or_pos j with rfl | hpos
      · rw [clearRun]
        refine clearRun_false_mono _ _ _ _ ?_
        simp [Function.update]
      · have hidx : nidx (base + j) = nidx ((base + 1) % 12 + (j - 1)) := by
          simp only [nidx, Fin.mk.injEq]
          omega
        rw [show (k + 1 : Nat) = k + 1 from rfl, clearRun, hidx]
        exact ih _ _ _ (by omega)

theorem clearRun_untouched (fl : Fin 6 → Bool) (base : Nat) (k : Nat) (j : Fin 6)
    (hk : k ≤ 6) (hj : ∀ i : Nat, i < k → (j : Nat) ≠ (base + i) % 6) :
    clearRun fl base k j = fl j := by
  induction k generalizing fl base with
  | zero => rfl
  | succ k ih =>
      rw [clearRun, ih _ _ (by omega)
        (fun i hi => by have := hj (i + 1) (by omega); omega)]
      have : j ≠ nidx base := by
        have := hj 0 (by omega)
        simp only [nidx, Ne, Fin.ext_iff]
        omega
      simp [Function.update, this]

/-- State of the sender (entity A): the static variables of
`src/unnamed/part_000` lines 41-46 together with the statistics counters
(`window_full`, `total_ACKs_received`, `new_ACKs`, `packets_resent`) that
the handlers increment. -/
structure SenderState where
  buffer : Fin 6 → Pkt
  acked : Fin 6 → Bool
  send_base : Nat
  A_nextseqnum : Nat
  windowcount : Int
  timer_running : Bool
  window_full : Nat
  total_ACKs_received : Nat
  new_ACKs : Nat
  packets_resent : Nat
deriving DecidableEq

/-- Calls the sender hands to the harness: `tolayer3(A, p)`, `starttimer(A, RTT)`,
`stoptimer(A)`, in program order. -/
inductive AOut where
  | tolayer3 (p : Pkt)
  | starttimer
  | stoptimer
deriving DecidableEq

/-- The all-zero packet: C static storage zero-initialises the packet
buffers before `A_init`/`B_init` run. -/
def zeroPkt : Pkt := { seqnum := 0, acknum := 0, payload := fun _ => 0, checksum := 0 }

/-- `A_init`, `src/unnamed/part_000` lines 191-205: sequence numbers and the
window counter start at 0, the timer is stopped, and every `acked` flag is
initialised to `true`. -/
def A_init : SenderState :=
  { buffer := fun _ => zeroPkt
    acked := fun _ => true
    send_base := 0
    A_nextseqnum := 0
    windowcount := 0
    timer_running := false
    window_full := 0
    total_ACKs_received := 0
    new_ACKs := 0
    packets_resent := 0 }

/-- `A_output`, `src/unnamed/part_000` lines 49-93.  If the window is not
full: build the packet (seqnum = `A_nextseqnum`, acknum = `NOTINUSE = -1`,
payload copied, checksum computed), store it at slot
`A_nextseqnum % WINDOWSIZE`, clear that slot's acked flag, send it, start
the timer when `windowcount == 0 && !timer_running`, then increment
`windowcount` and advance `A_nextseqnum` mod 12.  Otherwise only
`window_full` is incremented and nothing is sent. -/
def A_output (m : Msg) (s : SenderState) : SenderState × List AOut :=
  if s.windowcount < 6 then
    let sendpkt := mkpkt (s.A_nextseqnum : Int) (-1) m.data
    let bi := nidx s.A_nextseqnum
    ({ s with buffer := Function.update s.buffer bi sendpkt
              acked := Function.update s.acked bi false
              timer_running :=
                if s.windowcount = 0 ∧ s.timer_running = false then true else s.timer_running
              windowcount := s.windowcount + 1
              A_nextseqnum := (s.A_nextseqnum + 1) % 12 },
     AOut.tolayer3 sendpkt ::
       (if s.windowcount = 0 ∧ s.timer_running = false then [AOut.starttimer] else []))
  else
    ({ s with window_full := s.window_full + 1 }, [])

/-- The window-slide `while` loop of `A_input`,
`src/unnamed/part_000` lines 136-144 (identically `src/sr.c` lines 149-157):
while `acked[send_base % WINDOWSIZE]`, clear the flag, advance `send_base`
mod 12, decrement `windowcount`, and break when `windowcount` hits 0.
Each iteration clears the slot its guard just read, so the guard fails
within 6 iterations; `slide` runs the loop with fuel 6, which therefore
never runs out before the loop's own exit. -/
def slideFuel : Nat → (Fin 6 → Bool) → Nat → Int → ((Fin 6 → Bool) × Nat × Int)
  | 0, fl, base, wc => (fl, base, wc)
  | fuel + 1, fl, base, wc =>
      if fl (nidx base) = true then
        if wc - 1 = 0 then (Function.update fl (nidx base) false, (base + 1) % 12, wc - 1)
        else slideFuel fuel (Function.update fl (nidx base) false) ((base + 1) % 12) (wc - 1)
      else (fl, base, wc)

def slide (fl : Fin 6 → Bool) (base : Nat) (wc : Int) : (Fin 6 → Bool) × Nat × Int :=
  slideFuel 6 fl base wc

/-- `A_input`, `src/unnamed/part_000` lines 98-162.  Corrupted ACKs are
discarded outright.  Otherwise `total_ACKs_received` is incremented; an
out-of-window ACK is discarded; an in-window ACK whose slot is already
acked is a duplicate and is discarded; a new ACK marks its slot, and if it
acknowledges `send_base` the timer is stopped, the window slides, and the
timer is restarted when packets remain outstanding. -/
def A_input (p : Pkt) (s : SenderState) : SenderState × List AOut :=
  if IsCorrupted p = true then (s, [])
  else
    let s1 := { s with total_ACKs_received := s.total_ACKs_received + 1 }
    if in_window s.send_base p.acknum = true then
      if s.acked (idx p.acknum) = true then (s1, [])
      else
        let s2 := { s1 with new_ACKs := s1.new_ACKs + 1
                            acked := Function.update s1.acked (idx p.acknum) true }
        if p.acknum = (s.send_base : Int) then
          let r := slide s2.acked s2.send_base s2.windowcount
          if 0 < r.2.2 then
            ({ s2 with acked := r.1, send_base := r.2.1, windowcount := r.2.2
                       timer_running := true },
             [AOut.stoptimer, AOut.starttimer])
          else
            ({ s2 with acked := r.1, send_base := r.2.1, windowcount := r.2.2
                       timer_running := false },
             [AOut.stoptimer])
        else (s2, [])
    else (s1, [])

/-- `A_timerinterrupt`, `src/unnamed/part_000` lines 165-187: look only at
slot `send_base % WINDOWSIZE`; if it is unacknowledged, resend the buffered
packet there, count it, and restart the timer; otherwise do nothing. -/
def A_timerinterrupt (s : SenderState) : SenderState × List AOut :=
  if s.acked (nidx s.send_base) = true then (s, [])
  else
    ({ s with packets_resent := s.packets_resent + 1, timer_running := true },
     [AOut.tolayer3 (s.buffer (nidx s.send_base)), AOut.starttimer])

/-- One inbound event at the sender. -/
inductive AEv where
  | output (m : Msg)
  | input (p : Pkt)
  | timer
deriving DecidableEq

def Astep (e : AEv) (s : SenderState) : SenderState :=
  match e with
  | .output m => (A_output m s).1
  | .input p => (A_input p s).1
  | .timer => (A_timerinterrupt s).1

def runA (s : SenderState) : List AEv → SenderState
  | [] => s
  | e :: es => runA (Astep e s) es

/-- Packets the harness can hand to `A_input`: either detectably corrupted
(then `A_input` discards them before any indexing), or carrying an `acknum`
in the sequence space `[0, SEQSPACE)` as required of packets by the data
model (negative or oversized acknums would index the C arrays out of
bounds). -/
def AEvOK : AEv → Bool
  | .input p => IsCorrupted p || decide (0 ≤ p.acknum ∧ p.acknum < 12)
  | _ => true

/-- Sender states reachable from `A_init` by any sequence of `A_output`,
`A_input` and `A_timerinterrupt` events whose packets satisfy `AEvOK`. -/
inductive AReach : SenderState → Prop
  | init : AReach A_init
  | step {s : SenderState} (e : AEv) : AReach s → AEvOK e = true → AReach (Astep e s)

theorem AReach_runA (evs : List AEv) (s : SenderState) (hs : AReach s)
    (h : evs.all AEvOK = true) : AReach (runA s evs) := by
  induction evs generalizing s with
  | nil => exact hs
  | cons e es ih =>
      simp only [List.all_cons, Bool.and_eq_true] at h
      exact ih _ (AReach.step e hs h.1) h.2

/-- Full characterisation of the window-slide loop: with enough fuel it
clears a prefix run of `k` flagged slots starting at `base`, advances
`base` by `k` mod 12 and decrements `windowcount` by `k`; the run consists
of flagged slots, and the loop stops either because `windowcount` reached
zero or at a slot whose flag is down. -/
theorem slideFuel_spec (fuel : Nat) (fl : Fin 6 → Bool) (base : Nat) (wc : Int)
    (hf : countTrue fl ≤ fuel) (hb : base < 12) :
    ∃ k : Nat,
      slideFuel fuel fl base wc = (clearRun fl base k, (base + k) % 12, wc - k) ∧
      k ≤ countTrue fl ∧
      (fl (nidx base) = true → 1 ≤ k) ∧
      (∀ j : Nat, j < k → fl (nidx (base + j)) = true) ∧
      (wc - k = 0 ∨ clearRun fl base k (nidx ((base + k) % 12)) = false) ∧
      (1 ≤ wc → (k : Int) ≤ wc) := by
  induction fuel generalizing fl base wc with
  | zero =>
      have hall : ∀ j, fl j = false := by
        rw [← countTrue_eq_zero_iff]
        omega
      refine ⟨0, ?_, by omega, ?_, by omega, Or.inr ?_, by intro h; omega⟩
      · simp only [slideFuel, clearRun]
        refine Prod.ext rfl (Prod.ext (by simp; omega) (by simp))
      · intro h
        rw [hall (nidx base)] at h
        exact absurd h (by simp)
      · exact hall _
  | succ fuel ih =>
      by_cases hguard : fl (nidx base) = true
      · have hcount : countTrue (Function.update fl (nidx base) false) + 1 = countTrue fl :=
          countTrue_update_false fl (nidx base) hguard
        by_cases hwc : wc - 1 = 0
        · have hstep : slideFuel (fuel + 1) fl base wc
              = (Function.update fl (nidx base) false, (base + 1) % 12, wc - 1) := by
            simp only [slideFuel]
            rw [if_pos hguard, if_pos hwc]
          refine ⟨1, ?_, by omega, fun _ => le_rfl, ?_, Or.inl (by omega), by omega⟩
          · rw [hstep]
            refine Prod.ext (by simp [clearRun]) (Prod.ext rfl (by push_cast; ring))
          · intro j hj
            have : j = 0 := by omega
            subst this
            simpa using hguard
        · have hstep : slideFuel (fuel + 1) fl base wc
              = slideFuel fuel (Function.update fl (nidx base) false) ((base + 1) % 12) (wc - 1) := by
            simp only [slideFuel]
            rw [if_pos hguard, if_neg hwc]
          obtain ⟨k', heq, hle, _hpos, hrun, hstop, hwcle⟩ :=
            ih (Function.update fl (nidx base) false) ((base + 1) % 12) (wc - 1)
              (by omega) (by omega)
          have hk'5 : k' ≤ 5 := by
            have := countTrue_le_six fl
            omega
          refine ⟨k' + 1, ?_, by omega, fun _ => by omega, ?_, ?_, ?_⟩
          · rw [hstep, heq]
            show _ = (clearRun (Function.update fl (nidx base) false) ((base + 1) % 12) k', _, _)
            refine Prod.ext rfl (Prod.ext ?_ (by push_cast; ring_nf))
            show ((base + 1) % 12 + k') % 12 = (base + (k' + 1)) % 12
            omega
          · intro j hj
            rcases Nat.eq_zero_or_pos j with rfl | hjpos
            · simpa using hguard
            · have h1 := hrun (j - 1) (by omega)
              have hslot : nidx ((base + 1) % 12 + (j - 1)) = nidx (base + j) := by
                simp only [nidx, Fin.mk.injEq]
                omega
              rw [hslot] at h1
              have hne : nidx (base + j) ≠ nidx base := by
                simp only [nidx, Ne, Fin.ext_iff]
                omega
              rwa [Function.update_noteq hne] at h1
          · rcases hstop with h | h
            · exact Or.inl (by omega)
            · refine Or.inr ?_
              show clearRun (Function.update fl (nidx base) false) ((base + 1) % 12) k' _ = false
              have hslot : nidx ((base + (k' + 1)) % 12)
                  = nidx (((base + 1) % 12 + k') % 12) := by
                simp only [nidx, Fin.mk.injEq]
                omega
              rw [hslot]
              exact h
          · intro h1
            have : (1 : Int) ≤ wc - 1 := by omega
            have := hwcle this
            omega
      · have hguard' : fl (nidx base) = false := by
          cases h : fl (nidx base)
          · rfl
          · exact absurd h hguard
        refine ⟨0, ?_, by omega, fun h => absurd h hguard, by omega, Or.inr ?_, by intro h; omega⟩
        · simp only [slideFuel, hguard', clearRun]
          refine Prod.ext (by simp) (Prod.ext (by simp; omega) (by simp))
        · simpa [clearRun] using (by simpa [nidx, Nat.mod_eq_of_lt hb] using hguard' :
            fl (nidx (base % 12)) = false)

theorem slide_spec (fl : Fin 6 → Bool) (base : Nat) (wc : Int) (hb : base < 12) :
    ∃ k : Nat,
      slide fl base wc = (clearRun fl base k, (base + k) % 12, wc - k) ∧
      k ≤ countTrue fl ∧
      (fl (nidx base) = true → 1 ≤ k) ∧
      (∀ j : Nat, j < k → fl (nidx (base + j)) = true) ∧
      (wc - k = 0 ∨ clearRun fl base k (nidx ((base + k) % 12)) = false) ∧
      (1 ≤ wc → (k : Int) ≤ wc) :=
  slideFuel_spec 6 fl base wc (countTrue_le_six fl) hb

theorem idx_coe (n : Nat) : idx (n : Int) = nidx n := by
  simp only [idx, nidx, Fin.mk.injEq]
  omega

/-- The inductive invariant of the sender state machine: the base and the
next sequence number stay inside the sequence space, the next sequence
number is `send_base + windowcount` mod 12, the window counter never
exceeds `WINDOWSIZE`, and while any packet is outstanding the slot at
`send_base % WINDOWSIZE` is unacknowledged. -/
def AInv (s : SenderState) : Prop :=
  s.send_base < 12 ∧ s.A_nextseqnum < 12 ∧
  (s.A_nextseqnum : Int) = ((s.send_base : Int) + s.windowcount) % 12 ∧
  s.windowcount ≤ 6 ∧
  (0 < s.windowcount → s.acked (nidx s.send_base) = false)

theorem A_output_full (m : Msg) (s : SenderState) (h : ¬s.windowcount < 6) :
    A_output m s = ({ s with window_full := s.window_full + 1 }, []) := by
  rw [A_output, if_neg h]

theorem A_output_accept (m : Msg) (s : SenderState) (h : s.windowcount < 6) :
    A_output m s =
      ({ s with buffer := Function.update s.buffer (nidx s.A_nextseqnum)
                  (mkpkt (s.A_nextseqnum : Int) (-1) m.data)
                acked := Function.update s.acked (nidx s.A_nextseqnum) false
                timer_running :=
                  if s.windowcount = 0 ∧ s.timer_running = false then true else s.timer_running
                windowcount := s.windowcount + 1
                A_nextseqnum := (s.A_nextseqnum + 1) % 12 },
       AOut.tolayer3 (mkpkt (s.A_nextseqnum : Int) (-1) m.data) ::
         (if s.windowcount = 0 ∧ s.timer_running = false then [AOut.starttimer] else [])) := by
  rw [A_output, if_pos h]

theorem A_input_corrupted (p : Pkt) (s : SenderState) (h : IsCorrupted p = true) :
    A_input p s = (s, []) := by
  rw [A_input, if_pos h]

theorem A_input_outside (p : Pkt) (s : SenderState) (h1 : IsCorrupted p = false)
    (h2 : in_window s.send_base p.acknum = false) :
    A_input p s = ({ s with total_ACKs_received := s.total_ACKs_received + 1 }, []) := by
  rw [A_input, if_neg (by simp [h1]), if_neg (by simp [h2])]

theorem A_input_dup (p : Pkt) (s : SenderState) (h1 : IsCorrupted p = false)
    (h2 : in_window s.send_base p.acknum = true) (h3 : s.acked (idx p.acknum) = true) :
    A_input p s = ({ s with total_ACKs_received := s.total_ACKs_received + 1 }, []) := by
  rw [A_input, if_neg (by simp [h1]), if_pos h2, if_pos h3]

theorem A_input_new_other (p : Pkt) (s : SenderState) (h1 : IsCorrupted p = false)
    (h2 : in_window s.send_base p.acknum = true) (h3 : s.acked (idx p.acknum) = false)
    (h4 : p.acknum ≠ (s.send_base : Int)) :
    A_input p s =
      ({ s with total_ACKs_received := s.total_ACKs_received + 1
                new_ACKs := s.new_ACKs + 1
                acked := Function.update s.acked (idx p.acknum) true }, []) := by
  rw [A_input, if_neg (by simp [h1]), if_pos h2, if_neg (by simp [h3]), if_neg h4]

theorem A_input_new_base (p : Pkt) (s : SenderState) (h1 : IsCorrupted p = false)
    (h2 : in_window s.send_base p.acknum = true) (h3 : s.acked (idx p.acknum) = false)
    (h4 : p.acknum = (s.send_base : Int)) :
    A_input p s =
      (let r := slide (Function.update s.acked (idx p.acknum) true) s.send_base s.windowcount
       if 0 < r.2.2 then
         ({ s with total_ACKs_received := s.total_ACKs_received + 1
                   new_ACKs := s.new_ACKs + 1
                   acked := r.1, send_base := r.2.1, windowcount := r.2.2
                   timer_running := true },
          [AOut.stoptimer, AOut.starttimer])
       else
         ({ s with total_ACKs_received := s.total_ACKs_received + 1
                   new_ACKs := s.new_ACKs + 1
                   acked := r.1, send_base := r.2.1, windowcount := r.2.2
                   timer_running := false },
          [AOut.stoptimer])) := by
  rw [A_input, if_neg (by simp [h1]), if_pos h2, if_neg (by simp [h3]), if_pos h4]

theorem A_timerinterrupt_acked (s : SenderState) (h : s.acked (nidx s.send_base) = true) :
    A_timerinterrupt s = (s, []) := by
  rw [A_timerinterrupt, if_pos h]

theorem A_timerinterrupt_resend (s : SenderState) (h : s.acked (nidx s.send_base) = false) :
    A_timerinterrupt s =
      ({ s with packets_resent := s.packets_resent + 1, timer_running := true },
       [AOut.tolayer3 (s.buffer (nidx s.send_base)), AOut.starttimer]) := by
  rw [A_timerinterrupt, if_neg (by simp [h])]

theorem AReach_inv (s : SenderState) (h : AReach s) : AInv s := by
  induction h with
  | init =>
      refine ⟨?_, ?_, ?_, ?_, ?_⟩ <;> simp [A_init]
  | @step s e hreach hok ih =>
      obtain ⟨hb, hn, hrel, hwc6, hflag⟩ := ih
      cases e with
      | output m =>
          show AInv (A_output m s).1
          by_cases hlt : s.windowcount < 6
          · rw [A_output_accept m s hlt]
            dsimp only [AInv]
            refine ⟨hb, by omega, by push_cast; omega, by omega, ?_⟩
            intro hpos
            show Function.update s.acked (nidx s.A_nextseqnum) false (nidx s.send_base) = false
            by_cases hsame : nidx s.send_base = nidx s.A_nextseqnum
            · rw [hsame, Function.update_same]
            · rw [Function.update_noteq hsame]
              rcases lt_or_le 0 s.windowcount with hpos' | hz
              · exact hflag hpos'
              · exfalso
                have : s.A_nextseqnum = s.send_base := by omega
                exact hsame (by rw [this])
          · rw [A_output_full m s hlt]
            exact ⟨hb, hn, hrel, hwc6, hflag⟩
      | input p =>
          show AInv (A_input p s).1
          by_cases hcor : IsCorrupted p = true
          · rw [A_input_corrupted p s hcor]
            exact ⟨hb, hn, hrel, hwc6, hflag⟩
          · have hcor' : IsCorrupted p = false := by
              cases h : IsCorrupted p
              · rfl
              · exact absurd h hcor
            have hwf : 0 ≤ p.acknum ∧ p.acknum < 12 := by
              simp only [AEvOK, Bool.or_eq_true, decide_eq_true_eq] at hok
              rcases hok with h | h
              · exact absurd h hcor
              · exact h
            by_cases hin : in_window s.send_base p.acknum = true
            · by_cases hdup : s.acked (idx p.acknum) = true
              · rw [A_input_dup p s hcor' hin hdup]
                exact ⟨hb, hn, hrel, hwc6, hflag⟩
              · have hdup' : s.acked (idx p.acknum) = false := by
                  cases h : s.acked (idx p.acknum)
                  · rfl
                  · exact absurd h hdup
                obtain ⟨j, hj6, hjval⟩ := (in_window_iff _ _ hb hwf.1 hwf.2).mp hin
                by_cases hbase : p.acknum = (s.send_base : Int)
                · rw [A_input_new_base p s hcor' hin hdup' hbase]
                  have hidx : idx p.acknum = nidx s.send_base := by
                    rw [hbase, idx_coe]
                  have hfl : Function.update s.acked (idx p.acknum) true (nidx s.send_base)
                      = true := by
                    rw [hidx, Function.update_same]
                  obtain ⟨k, heq, hkle, hkpos, hrun, hstop, hwcle⟩ :=
                    slide_spec (Function.update s.acked (idx p.acknum) true)
                      s.send_base s.windowcount hb
                  have hk1 : 1 ≤ k := hkpos hfl
                  rw [heq]
                  by_cases hpos : (0 : Int) < s.windowcount - k
                  · rw [if_pos hpos]
                    dsimp only [AInv]
                    refine ⟨by omega, hn, by push_cast at hrel ⊢; omega, by omega, ?_⟩
                    intro _
                    rcases hstop with hz | hfalse
                    · omega
                    · exact hfalse
                  · rw [if_neg hpos]
                    dsimp only [AInv]
                    refine ⟨by omega, hn, by push_cast at hrel ⊢; omega, by omega, ?_⟩
                    intro hpos'
                    exact absurd hpos' hpos
                · rw [A_input_new_other p s hcor' hin hdup' hbase]
                  refine ⟨hb, hn, hrel, hwc6, ?_⟩
                  intro hpos
                  have hj0 : j ≠ 0 := by
                    intro hj0
                    subst hj0
                    exact hbase (by omega)
                  have hne : nidx s.send_base ≠ idx p.acknum := by
                    rw [hjval, idx_coe]
                    simp only [nidx, Ne, Fin.ext_iff]
                    omega
                  show Function.update s.acked (idx p.acknum) true (nidx s.send_base) = false
                  rw [Function.update_noteq hne]
                  exact hflag hpos
            · have hin' : in_window s.send_base p.acknum = false := by
                cases h : in_window s.send_base p.acknum
                · rfl
                · exact absurd h hin
              rw [A_input_outside p s hcor' hin']
              exact ⟨hb, hn, hrel, hwc6, hflag⟩
      | timer =>
          show AInv (A_timerinterrupt s).1
          by_cases hack : s.acked (nidx s.send_base) = true
          · rw [A_timerinterrupt_acked s hack]
            exact ⟨hb, hn, hrel, hwc6, hflag⟩
          · have hack' : s.acked (nidx s.send_base) = false := by
              cases h : s.acked (nidx s.send_base)
              · rfl
              · exact absurd h hack
            rw [A_timerinterrupt_resend s hack']
            exact ⟨hb, hn, hrel, hwc6, hflag⟩

/-- An ACK packet that, when it is uncorrupted and falls inside the send
window, acknowledges a currently outstanding sequence number
(`send_base + k` with `k < windowcount`).  In a closed run of the protocol
every ACK the receiver can produce has this property: B only acknowledges
packets that A actually sent. -/
def GoodAck (s : SenderState) (p : Pkt) : Prop :=
  IsCorrupted p = true ∨ in_window s.send_base p.acknum = false ∨
    ∃ k : Nat, (k : Int) < s.windowcount ∧ p.acknum = (((s.send_base + k) % 12 : Nat) : Int)

def GoodEv (s : SenderState) : AEv → Prop
  | .input p => GoodAck s p
  | _ => True

/-- Sender states reachable when every processed uncorrupted in-window ACK
acknowledges an outstanding packet. -/
inductive GoodAReach : SenderState → Prop
  | init : GoodAReach A_init
  | step {s : SenderState} (e : AEv) : GoodAReach s → GoodEv s e → GoodAReach (Astep e s)

theorem GoodAReach_inv (s : SenderState) (h : GoodAReach s) :
    s.send_base < 12 ∧ 0 ≤ s.windowcount ∧ s.windowcount ≤ 6 := by
  induction h with
  | init =>
      refine ⟨?_, ?_, ?_⟩ <;> simp [A_init]
  | @step s e hreach hok ih =>
      obtain ⟨hb, hwc0, hwc6⟩ := ih
      cases e with
      | output m =>
          simp only [Astep]
          by_cases hlt : s.windowcount < 6
          · rw [A_output_accept m s hlt]
            dsimp only
            exact ⟨hb, by omega, by omega⟩
          · rw [A_output_full m s hlt]
            dsimp only
            exact ⟨hb, hwc0, hwc6⟩
      | input p =>
          simp only [Astep]
          by_cases hcor : IsCorrupted p = true
          · rw [A_input_corrupted p s hcor]
            dsimp only
            exact ⟨hb, hwc0, hwc6⟩
          · have hcor' : IsCorrupted p = false := by
              cases h : IsCorrupted p
              · rfl
              · exact absurd h hcor
            by_cases hin : in_window s.send_base p.acknum = true
            · have hgood : ∃ k : Nat, (k : Int) < s.windowcount ∧
                  p.acknum = (((s.send_base + k) % 12 : Nat) : Int) := by
                rcases hok with h | h | h
                · exact absurd h hcor
                · rw [hin] at h
                  exact absurd h (by simp)
                · exact h
              obtain ⟨k, hkw, hkval⟩ := hgood
              by_cases hdup : s.acked (idx p.acknum) = true
              · rw [A_input_dup p s hcor' hin hdup]
                dsimp only
                exact ⟨hb, hwc0, hwc6⟩
              · have hdup' : s.acked (idx p.acknum) = false := by
                  cases h : s.acked (idx p.acknum)
                  · rfl
                  · exact absurd h hdup
                by_cases hbase : p.acknum = (s.send_base : Int)
                · rw [A_input_new_base p s hcor' hin hdup' hbase]
                  have hk0 : k = 0 := by omega
                  have hwpos : (0 : Int) < s.windowcount := by omega
                  obtain ⟨k', heq, hkle, hkpos, hrun, hstop, hwcle⟩ :=
                    slide_spec (Function.update s.acked (idx p.acknum) true)
                      s.send_base s.windowcount hb
                  have hk'w : (k' : Int) ≤ s.windowcount := hwcle (by omega)
                  rw [heq]
                  by_cases hpos : (0 : Int) < s.windowcount - k'
                  · rw [if_pos hpos]
                    dsimp only
                    exact ⟨by omega, by omega, by omega⟩
                  · rw [if_neg hpos]
                    dsimp only
                    exact ⟨by omega, by omega, by omega⟩
                · rw [A_input_new_other p s hcor' hin hdup' hbase]
                  dsimp only
                  exact ⟨hb, hwc0, hwc6⟩
            · have hin' : in_window s.send_base p.acknum = false := by
                cases h : in_window s.send_base p.acknum
                · rfl
                · exact absurd h hin
              rw [A_input_outside p s hcor' hin']
              dsimp only
              exact ⟨hb, hwc0, hwc6⟩
      | timer =>
          simp only [Astep]
          by_cases hack : s.acked (nidx s.send_base) = true
          · rw [A_timerinterrupt_acked s hack]
            exact ⟨hb, hwc0, hwc6⟩
          · have hack' : s.acked (nidx s.send_base) = false := by
              cases h : s.acked (nidx s.send_base)
              · rfl
              · exact absurd h hack
            rw [A_timerinterrupt_resend s hack']
            dsimp only
            exact ⟨hb, hwc0, hwc6⟩

/-- State of the receiver (entity B): the static variables of
`src/unnamed/part_000` lines 209-212 plus the `packets_received` counter.
`src/sr.c` keeps the same variables (its buffer is named `rcv_buffer` and
its flag array `rcv_acked` as well). -/
structure ReceiverState where
  rcv_buffer : Fin 6 → Pkt
  rcv_acked : Fin 6 → Bool
  rcv_base : Nat
  B_nextseqnum : Nat
  packets_received : Nat
deriving DecidableEq

/-- `B_init` of `src/unnamed/part_000` lines 293-304: `rcv_base = 0`,
`B_nextseqnum = 1`, all received flags cleared. -/
def B_init : ReceiverState :=
  { rcv_buffer := fun _ => zeroPkt
    rcv_acked := fun _ => false
    rcv_base := 0
    B_nextseqnum := 1
    packets_received := 0 }

/-- `B_init` of `src/sr.c` lines 312-323: identical except that
`B_nextseqnum` starts at 0. -/
def B_init_src : ReceiverState :=
  { B_init with B_nextseqnum := 0 }

/-- The in-order delivery `while` loop of `B_input`,
`src/unnamed/part_000` lines 241-251 (identically `src/sr.c` lines 263-270):
while `rcv_acked[rcv_base % WINDOWSIZE]`, deliver the buffered packet's
payload to layer 5, clear the flag, and advance `rcv_base` mod 12.  The
returned list collects the delivered packets in delivery order.  As with
`slide`, each iteration clears the slot its guard reads, so fuel 6 never
runs out before the guard fails. -/
def drainFuel : Nat → (Fin 6 → Pkt) → (Fin 6 → Bool) → Nat →
    ((Fin 6 → Bool) × Nat × List Pkt)
  | 0, _, fl, base => (fl, base, [])
  | fuel + 1, buf, fl, base =>
      if fl (nidx base) = true then
        let r := drainFuel fuel buf (Function.update fl (nidx base) false) ((base + 1) % 12)
        (r.1, r.2.1, buf (nidx base) :: r.2.2)
      else (fl, base, [])

def drain (buf : Fin 6 → Pkt) (fl : Fin 6 → Bool) (base : Nat) :
    (Fin 6 → Bool) × Nat × List Pkt :=
  drainFuel 6 buf fl base

/-- `B_input` of `src/unnamed/part_000` lines 215-289.  The result is
`(new state, delivered packets, packets handed to tolayer3)`.
An uncorrupted in-window packet is buffered at slot
`seqnum % WINDOWSIZE`; if its seqnum equals `rcv_base` the contiguous run
of buffered packets is delivered in order.  The concluding ACK carries
`acknum = seqnum` for an uncorrupted packet (in window or not) and
`acknum = rcv_base - 1` (or `SEQSPACE - 1` when `rcv_base = 0`) for a
corrupted one; its seqnum is the toggling `B_nextseqnum` and its payload is
twenty `0` characters (ASCII 48). -/
def B_input (p : Pkt) (s : ReceiverState) : ReceiverState × List Pkt × List Pkt :=
  let hd :=
    if IsCorrupted p = false then
      if in_window s.rcv_base p.seqnum = true then
        let buf2 := Function.update s.rcv_buffer (idx p.seqnum) p
        let fl2 := Function.update s.rcv_acked (idx p.seqnum) true
        if p.seqnum = (s.rcv_base : Int) then
          let r := drain buf2 fl2 s.rcv_base
          (p.seqnum,
           { s with rcv_buffer := buf2, rcv_acked := r.1, rcv_base := r.2.1
                    packets_received := s.packets_received + 1 },
           r.2.2)
        else
          (p.seqnum,
           { s with rcv_buffer := buf2, rcv_acked := fl2
                    packets_received := s.packets_received + 1 },
           ([] : List Pkt))
      else (p.seqnum, s, ([] : List Pkt))
    else
      ((if s.rcv_base = 0 then (11 : Int) else (s.rcv_base : Int) - 1), s, ([] : List Pkt))
  ({ hd.2.1 with B_nextseqnum := (s.B_nextseqnum + 1) % 2 },
   hd.2.2,
   [mkpkt (s.B_nextseqnum : Int) hd.1 (fun _ => 48)])

/-- The concluding loop of `B_input` in `src/sr.c` lines 299-307: the
closing brace of the payload-fill loop sits after the `tolayer3` call, so
checksum computation and the send execute on every iteration.  Iteration
`i` sends a packet whose payload is '0' (48) in positions `0..i` and the
residue of the uninitialised local `sendpkt` (`junk`) above; 20 packets are
handed to the channel. -/
def srAckTail (junk : Fin 20 → Int) (seqn : Nat) (ackn : Int) : List Pkt :=
  (List.range 20).map fun i =>
    mkpkt (seqn : Int) ackn (fun j => if (j : Nat) ≤ i then 48 else junk j)

/-- `B_input` of `src/sr.c` lines 235-308: identical to
`src/unnamed/part_000` up to the concluding ACK construction, which due to
the misplaced brace sends 20 packets (`srAckTail`).  `junk` is the content
of the uninitialised local `sendpkt.payload`. -/
def B_input_src (junk : Fin 20 → Int) (p : Pkt) (s : ReceiverState) :
    ReceiverState × List Pkt × List Pkt :=
  let hd :=
    if IsCorrupted p = false then
      if in_window s.rcv_base p.seqnum = true then
        let buf2 := Function.update s.rcv_buffer (idx p.seqnum) p
        let fl2 := Function.update s.rcv_acked (idx p.seqnum) true
        if p.seqnum = (s.rcv_base : Int) then
          let r := drain buf2 fl2 s.rcv_base
          (p.seqnum,
           { s with rcv_buffer := buf2, rcv_acked := r.1, rcv_base := r.2.1
                    packets_received := s.packets_received + 1 },
           r.2.2)
        else
          (p.seqnum,
           { s with rcv_buffer := buf2, rcv_acked := fl2
                    packets_received := s.packets_received + 1 },
           ([] : List Pkt))
      else (p.seqnum, s, ([] : List Pkt))
    else
      ((if s.rcv_base = 0 then (11 : Int) else (s.rcv_base : Int) - 1), s, ([] : List Pkt))
  ({ hd.2.1 with B_nextseqnum := (s.B_nextseqnum + 1) % 2 },
   hd.2.2,
   srAckTail junk s.B_nextseqnum hd.1)

/-- Run the receiver over a list of arriving packets, collecting every
packet delivered to layer 5 in delivery order. -/
def runB (s : ReceiverState) : List Pkt → ReceiverState × List Pkt
  | [] => (s, [])
  | p :: ps =>
      let r := B_input p s
      let rest := runB r.1 ps
      (rest.1, r.2.1 ++ rest.2)

theorem B_input_corrupted_eq (p : Pkt) (s : ReceiverState) (h : IsCorrupted p = true) :
    B_input p s =
      ({ s with B_nextseqnum := (s.B_nextseqnum + 1) % 2 }, [],
       [mkpkt (s.B_nextseqnum : Int)
          (if s.rcv_base = 0 then (11 : Int) else (s.rcv_base : Int) - 1) (fun _ => 48)]) := by
  rw [B_input]
  rw [if_neg (by simp [h])]

theorem B_input_outside_eq (p : Pkt) (s : ReceiverState) (h1 : IsCorrupted p = false)
    (h2 : in_window s.rcv_base p.seqnum = false) :
    B_input p s =
      ({ s with B_nextseqnum := (s.B_nextseqnum + 1) % 2 }, [],
       [mkpkt (s.B_nextseqnum : Int) p.seqnum (fun _ => 48)]) := by
  rw [B_input]
  rw [if_pos h1, if_neg (by simp [h2])]

theorem B_input_store_eq (p : Pkt) (s : ReceiverState) (h1 : IsCorrupted p = false)
    (h2 : in_window s.rcv_base p.seqnum = true) (h3 : p.seqnum ≠ (s.rcv_base : Int)) :
    B_input p s =
      ({ s with rcv_buffer := Function.update s.rcv_buffer (idx p.seqnum) p
                rcv_acked := Function.update s.rcv_acked (idx p.seqnum) true
                packets_received := s.packets_received + 1
                B_nextseqnum := (s.B_nextseqnum + 1) % 2 }, [],
       [mkpkt (s.B_nextseqnum : Int) p.seqnum (fun _ => 48)]) := by
  rw [B_input]
  rw [if_pos h1, if_pos h2, if_neg h3]

theorem B_input_base_eq (p : Pkt) (s : ReceiverState) (h1 : IsCorrupted p = false)
    (h2 : in_window s.rcv_base p.seqnum = true) (h3 : p.seqnum = (s.rcv_base : Int)) :
    B_input p s =
      (let buf2 := Function.update s.rcv_buffer (idx p.seqnum) p
       let r := drain buf2 (Function.update s.rcv_acked (idx p.seqnum) true) s.rcv_base
       ({ s with rcv_buffer := buf2, rcv_acked := r.1, rcv_base := r.2.1
                 packets_received := s.packets_received + 1
                 B_nextseqnum := (s.B_nextseqnum + 1) % 2 },
        r.2.2,
        [mkpkt (s.B_nextseqnum : Int) p.seqnum (fun _ => 48)])) := by
  rw [B_input]
  rw [if_pos h1, if_pos h2, if_pos h3]

/-- Full characterisation of the receiver's drain loop.  If every buffered
(flagged) slot holds a packet whose sequence number is the unique in-window
sequence number addressing that slot, then the loop delivers some prefix of
`m` packets carrying the consecutive sequence numbers
`base, base+1, ..., base+m-1` (mod 12), advances `rcv_base` by `m`, and
leaves only slots whose offset from the new base is in `[1, 6)`. -/
theorem drainFuel_spec (fuel : Nat) (buf : Fin 6 → Pkt) (fl : Fin 6 → Bool) (base : Nat)
    (hf : countTrue fl ≤ fuel) (hb : base < 12)
    (hflags : ∀ j : Fin 6, fl j = true → ∃ k : Nat, k < 6 ∧ (j : Nat) = (base + k) % 6 ∧
      (buf j).seqnum = (((base + k) % 12 : Nat) : Int)) :
    ∃ m : Nat, m ≤ countTrue fl ∧
      (drainFuel fuel buf fl base).2.1 = (base + m) % 12 ∧
      ((drainFuel fuel buf fl base).2.2.map Pkt.seqnum
        = (List.range m).map fun i => (((base + i) % 12 : Nat) : Int)) ∧
      (∀ j : Fin 6, (drainFuel fuel buf fl base).1 j = true → ∃ k : Nat, 1 ≤ k ∧ k < 6 ∧
        (j : Nat) = ((base + m) % 12 + k) % 6 ∧
        (buf j).seqnum = ((((base + m) % 12 + k) % 12 : Nat) : Int)) := by
  induction fuel generalizing fl base with
  | zero =>
      have hall : ∀ j, fl j = false := by
        rw [← countTrue_eq_zero_iff]
        omega
      refine ⟨0, by omega, by simp [drainFuel]; omega, by simp [drainFuel], ?_⟩
      intro j hj
      simp only [drainFuel] at hj
      rw [hall j] at hj
      exact absurd hj (by simp)
  | succ fuel ih =>
      by_cases hguard : fl (nidx base) = true
      · have hcount : countTrue (Function.update fl (nidx base) false) + 1 = countTrue fl :=
          countTrue_update_false fl (nidx base) hguard
        have hstep : drainFuel (fuel + 1) buf fl base =
            ((drainFuel fuel buf (Function.update fl (nidx base) false) ((base + 1) % 12)).1,
             (drainFuel fuel buf (Function.update fl (nidx base) false) ((base + 1) % 12)).2.1,
             buf (nidx base) ::
               (drainFuel fuel buf (Function.update fl (nidx base) false) ((base + 1) % 12)).2.2) := by
          simp only [drainFuel]
          rw [if_pos hguard]
        have hflags' : ∀ j : Fin 6, Function.update fl (nidx base) false j = true →
            ∃ k : Nat, k < 6 ∧ (j : Nat) = ((base + 1) % 12 + k) % 6 ∧
              (buf j).seqnum = ((((base + 1) % 12 + k) % 12 : Nat) : Int) := by
          intro j hj
          have hjne : j ≠ nidx base := by
            intro hcontra
            rw [hcontra, Function.update_same] at hj
            exact absurd hj (by simp)
          rw [Function.update_noteq hjne] at hj
          obtain ⟨k, hk6, hslot, hseq⟩ := hflags j hj
          have hk0 : k ≠ 0 := by
            intro hk0
            subst hk0
            refine hjne (Fin.ext ?_)
            simpa [nidx] using hslot
          refine ⟨k - 1, by omega, by omega, ?_⟩
          have : ((base + 1) % 12 + (k - 1)) % 12 = (base + k) % 12 := by omega
          rw [this]
          exact hseq
        obtain ⟨m', hm'le, hbase', hmap', hflag'⟩ :=
          ih (Function.update fl (nidx base) false) ((base + 1) % 12) (by omega) (by omega)
            hflags'
        have hheadseq : (buf (nidx base)).seqnum = ((base : Nat) : Int) := by
          obtain ⟨k, hk6, hslot, hseq⟩ := hflags (nidx base) hguard
          have hk0 : k = 0 := by
            simp only [nidx] at hslot
            omega
          subst hk0
          rw [hseq]
          congr 1
          omega
        refine ⟨m' + 1, by omega, ?_, ?_, ?_⟩
        · rw [hstep]
          dsimp only
          rw [hbase']
          omega
        · rw [hstep]
          dsimp only
          rw [List.map_cons, hmap', hheadseq, List.range_succ_eq_map, List.map_cons,
            List.map_map]
          refine congrArg₂ _ (by norm_num; omega) ?_
          refine List.map_congr_left ?_
          intro i _
          simp only [Function.comp_apply]
          congr 1
          omega
        · rw [hstep]
          dsimp only
          intro j hj
          obtain ⟨k, hk1, hk6, hslot, hseq⟩ := hflag' j hj
          refine ⟨k, hk1, hk6, by omega, ?_⟩
          have : ((base + (m' + 1)) % 12 + k) % 12 = (((base + 1) % 12 + m') % 12 + k) % 12 := by
            omega
          rw [this]
          exact hseq
      · have hguard' : fl (nidx base) = false := by
          cases h : fl (nidx base)
          · rfl
          · exact absurd h hguard
        have hstep : drainFuel (fuel + 1) buf fl base = (fl, base, []) := by
          simp only [drainFuel]
          rw [if_neg (by simp [hguard'])]
        refine ⟨0, by omega, by rw [hstep]; dsimp only; omega, by rw [hstep]; simp, ?_⟩
        rw [hstep]
        intro j hj
        dsimp only at hj
        obtain ⟨k, hk6, hslot, hseq⟩ := hflags j hj
        have hk0 : k ≠ 0 := by
          intro hk0
          subst hk0
          have : j = nidx base := Fin.ext (by simpa [nidx] using hslot)
          rw [this, hguard'] at hj
          exact absurd hj (by simp)
        refine ⟨k, by omega, by omega, by omega, ?_⟩
        have : ((base + 0) % 12 + k) % 12 = (base + k) % 12 := by omega
        rw [this]
        exact hseq

theorem drain_spec (buf : Fin 6 → Pkt) (fl : Fin 6 → Bool) (base : Nat) (hb : base < 12)
    (hflags : ∀ j : Fin 6, fl j = true → ∃ k : Nat, k < 6 ∧ (j : Nat) = (base + k) % 6 ∧
      (buf j).seqnum = (((base + k) % 12 : Nat) : Int)) :
    ∃ m : Nat, m ≤ countTrue fl ∧
      (drain buf fl base).2.1 = (base + m) % 12 ∧
      ((drain buf fl base).2.2.map Pkt.seqnum
        = (List.range m).map fun i => (((base + i) % 12 : Nat) : Int)) ∧
      (∀ j : Fin 6, (drain buf fl base).1 j = true → ∃ k : Nat, 1 ≤ k ∧ k < 6 ∧
        (j : Nat) = ((base + m) % 12 + k) % 6 ∧
        (buf j).seqnum = ((((base + m) % 12 + k) % 12 : Nat) : Int)) :=
  drainFuel_spec 6 buf fl base (countTrue_le_six fl) hb hflags

/-- The inductive invariant of the receiver after `d` total deliveries:
`rcv_base = d % 12`, and every buffered slot holds a packet whose sequence
number is the unique in-window sequence number addressing that slot, at an
offset in `[1, 6)` from `rcv_base` (the slot at `rcv_base` itself is never
left buffered: the drain loop always consumes it). -/
def RInv (s : ReceiverState) (d : Nat) : Prop :=
  s.rcv_base = d % 12 ∧
  (∀ j : Fin 6, s.rcv_acked j = true → ∃ k : Nat, 1 ≤ k ∧ k < 6 ∧
    (j : Nat) = (s.rcv_base + k) % 6 ∧
    (s.rcv_buffer j).seqnum = (((s.rcv_base + k) % 12 : Nat) : Int))

theorem RInv_B_init : RInv B_init 0 := by
  refine ⟨rfl, ?_⟩
  intro j hj
  exact absurd hj (by simp [B_init])

theorem B_input_step (p : Pkt) (s : ReceiverState) (d : Nat) (hI : RInv s d)
    (hwf : IsCorrupted p = true ∨ (0 ≤ p.seqnum ∧ p.seqnum < 12)) :
    RInv (B_input p s).1 (d + (B_input p s).2.1.length) ∧
    ((B_input p s).2.1.map Pkt.seqnum
      = (List.range (B_input p s).2.1.length).map fun i => (((d + i) % 12 : Nat) : Int)) := by
  obtain ⟨hbase, hflags⟩ := hI
  have hb : s.rcv_base < 12 := by omega
  by_cases hcor : IsCorrupted p = true
  · rw [B_input_corrupted_eq p s hcor]
    dsimp only
    exact ⟨⟨by dsimp only; simp only [List.length_nil]; omega, hflags⟩, by simp⟩
  · have hcor' : IsCorrupted p = false := by
      cases h : IsCorrupted p
      · rfl
      · exact absurd h hcor
    have hrange : 0 ≤ p.seqnum ∧ p.seqnum < 12 := by
      rcases hwf with h | h
      · exact absurd h hcor
      · exact h
    by_cases hin : in_window s.rcv_base p.seqnum = true
    · obtain ⟨k, hk6, hkval⟩ := (in_window_iff _ _ hb hrange.1 hrange.2).mp hin
      by_cases hsb : p.seqnum = (s.rcv_base : Int)
      · rw [B_input_base_eq p s hcor' hin hsb]
        dsimp only
        have hidx : idx p.seqnum = nidx s.rcv_base := by
          rw [hsb, idx_coe]
        have hflags2 : ∀ j : Fin 6,
            Function.update s.rcv_acked (idx p.seqnum) true j = true →
            ∃ k : Nat, k < 6 ∧ (j : Nat) = (s.rcv_base + k) % 6 ∧
              ((Function.update s.rcv_buffer (idx p.seqnum) p j).seqnum
                = (((s.rcv_base + k) % 12 : Nat) : Int)) := by
          intro j hj
          by_cases hji : j = idx p.seqnum
          · subst hji
            refine ⟨0, by omega, ?_, ?_⟩
            · rw [hidx]
              simp [nidx]
            · rw [Function.update_same, hsb]
              congr 1
              omega
          · rw [Function.update_noteq hji] at hj
            obtain ⟨k', hk'1, hk'6, hslot, hseq⟩ := hflags j hj
            rw [Function.update_noteq hji]
            exact ⟨k', by omega, hslot, hseq⟩
        obtain ⟨m, hmle, hbase', hmap, hflag'⟩ :=
          drain_spec (Function.update s.rcv_buffer (idx p.seqnum) p)
            (Function.update s.rcv_acked (idx p.seqnum) true) s.rcv_base hb hflags2
        have hlen : (drain (Function.update s.rcv_buffer (idx p.seqnum) p)
            (Function.update s.rcv_acked (idx p.seqnum) true) s.rcv_base).2.2.length = m := by
          have := congrArg List.length hmap
          simpa using this
        rw [hlen]
        refine ⟨⟨?_, ?_⟩, ?_⟩
        · dsimp only
          rw [hbase']
          omega
        · intro j hj
          dsimp only at hj ⊢
          obtain ⟨k', hk'1, hk'6, hslot, hseq⟩ := hflag' j hj
          rw [hbase']
          exact ⟨k', hk'1, hk'6, hslot, hseq⟩
        · rw [hmap]
          refine List.map_congr_left ?_
          intro i _
          congr 1
          omega
      · rw [B_input_store_eq p s hcor' hin hsb]
        dsimp only
        refine ⟨⟨by dsimp only; simp only [List.length_nil]; omega, ?_⟩, by simp⟩
        intro j hj
        dsimp only at hj ⊢
        by_cases hji : j = idx p.seqnum
        · subst hji
          have hk0 : k ≠ 0 := by
            intro hk0
            subst hk0
            exact hsb (by omega)
          refine ⟨k, by omega, hk6, ?_, ?_⟩
          · rw [hkval, idx_coe]
            simp only [nidx]
            omega
          · rw [Function.update_same, hkval]
        · rw [Function.update_noteq hji] at hj
          rw [Function.update_noteq hji]
          exact hflags j hj
    · have hin' : in_window s.rcv_base p.seqnum = false := by
        cases h : in_window s.rcv_base p.seqnum
        · rfl
        · exact absurd h hin
      rw [B_input_outside_eq p s hcor' hin']
      dsimp only
      exact ⟨⟨by dsimp only; simp only [List.length_nil]; omega, hflags⟩, by simp⟩

theorem runB_delivers (ps : List Pkt) (s : ReceiverState) (d : Nat) (hI : RInv s d)
    (hwf : ∀ p ∈ ps, IsCorrupted p = true ∨ (0 ≤ p.seqnum ∧ p.seqnum < 12)) :
    (runB s ps).2.map Pkt.seqnum
      = (List.range (runB s ps).2.length).map fun i => (((d + i) % 12 : Nat) : Int) := by
  induction ps generalizing s d with
  | nil => simp [runB]
  | cons p ps ih =>
      obtain ⟨hI', hmap⟩ := B_input_step p s d hI (hwf p (by simp))
      have hrest := ih (B_input p s).1 (d + (B_input p s).2.1.length) hI'
        (fun q hq => hwf q (by simp [hq]))
      simp only [runB]
      rw [List.map_append, hmap, hrest, List.length_append, List.range_add,
        List.map_append, List.map_map]
      refine congrArg₂ _ rfl ?_
      refine List.map_congr_left ?_
      intro i _
      simp only [Function.comp_apply]
      congr 1
      omega

/-! Concrete values used by the witnesses and counterexamples. -/

def zpay : Fin 20 → Int := fun _ => 0

def zmsg : Msg := ⟨zpay⟩

/-- An uncorrupted ACK packet for sequence number `a` (seqnum 0, zero payload). -/
def ackPktFor (a : Nat) : Pkt := mkpkt 0 (a : Int) zpay

/-- A corrupted packet: its stored checksum 99 differs from the recomputed 0. -/
def badPkt : Pkt := { seqnum := 0, acknum := 0, payload := zpay, checksum := 99 }

/-- Six accepted sends followed by the six matching ACKs 0..5: afterwards
`send_base = 6`, `windowcount = 0`, and all six acked flags are `false`
(the slide loop left them cleared). -/
def c4evs : List AEv :=
  List.replicate 6 (AEv.output zmsg) ++ (List.range 6).map fun a => AEv.input (ackPktFor a)

def c4state : SenderState := runA A_init c4evs

/-- The same run, followed by an in-window ACK for the never-sent sequence
number 7 and then one for 6: the slide loop drives `windowcount` to -2. -/
def c9evs : List AEv :=
  c4evs ++ [AEv.input (ackPktFor 7), AEv.input (ackPktFor 6)]

def c9state : SenderState := runA A_init c9evs

/-- C1: the claim is that every `B_input` invocation hands exactly one
acknowledgment packet to the channel.  The clean draft
(`src/unnamed/part_000`, embedded as `B_input`) does; `src/sr.c`'s
`B_input` (embedded as `B_input_src`), whose payload-fill loop encloses the
`tolayer3` call through a misplaced closing brace, hands over 20.  This
theorem evaluates both at a concrete uncorrupted data packet arriving at
the freshly initialised receiver. -/
theorem C1_ack_emission_count :
    (B_input (mkpkt 0 (-1) zpay) B_init).2.2.length = 1 ∧
    (B_input_src zpay (mkpkt 0 (-1) zpay) B_init_src).2.2.length = 20 := by
  constructor
  · rfl
  · rfl

/-- C2: for any sequence of packets handed to `B_input` from the initial
receiver state — duplicates and corrupted packets included, and any
uncorrupted packet carrying a sequence number of the space `[0, 12)` — the
packets whose payloads get delivered to layer 5 carry exactly the sequence
numbers `0, 1, 2, ...` mod `SEQSPACE` in consecutive order: no duplicate,
no gap, no reordering. -/
theorem C2_in_order_delivery (ps : List Pkt)
    (hwf : ∀ p ∈ ps, IsCorrupted p = true ∨ (0 ≤ p.seqnum ∧ p.seqnum < 12)) :
    (runB B_init ps).2.map Pkt.seqnum
      = (List.range (runB B_init ps).2.length).map fun i => ((i % 12 : Nat) : Int) := by
  have h := runB_delivers ps B_init 0 RInv_B_init hwf
  simpa using h

/-- The spec's out-of-order scenario: packets 0, 2, 1 arrive; payload 0
delivers at once, 2 is buffered, and the arrival of 1 drains 1 and 2. -/
def c2ps : List Pkt := [mkpkt 0 (-1) zpay, mkpkt 2 (-1) zpay, mkpkt 1 (-1) zpay]

theorem C2_in_order_delivery_witness :
    (runB B_init c2ps).2.map Pkt.seqnum
      = (List.range (runB B_init c2ps).2.length).map fun i => ((i % 12 : Nat) : Int) :=
  C2_in_order_delivery c2ps (by decide)

/-- C3: with the window full (`windowcount = WINDOWSIZE = 6`), `A_output`
rejects the message: the only state change is the `window_full` counter,
and nothing is handed to the channel or the timer. -/
theorem C3_window_full_reject (m : Msg) (s : SenderState) (h : s.windowcount = 6) :
    A_output m s = ({ s with window_full := s.window_full + 1 }, []) := by
  rw [A_output, if_neg (by omega)]

theorem C3_window_full_reject_witness :
    A_output zmsg { A_init with windowcount := 6 }
      = ({ A_init with windowcount := 6, window_full := 1 }, []) :=
  C3_window_full_reject zmsg { A_init with windowcount := 6 } rfl

/-- C4, counterexample to the claim as stated: in the reachable state
`c4state` (six packets sent, all six acknowledged) no unacknowledged
outstanding packet exists — `windowcount = 0` — yet `A_timerinterrupt` is
not a no-op: the slide loop left the `acked` flag of the base slot
cleared, so the handler resends the stale buffered packet and mutates the
state (`packets_resent`, `timer_running`). -/
theorem C4_counterexample :
    AReach c4state ∧ c4state.windowcount = 0 ∧
      (A_timerinterrupt c4state).2 ≠ [] ∧ (A_timerinterrupt c4state).1 ≠ c4state :=
  ⟨AReach_runA c4evs A_init AReach.init (by decide), by decide, by decide, by decide⟩

/-- C4, amended: `A_timerinterrupt` does not scan; it examines only the
slot `send_base % WINDOWSIZE`.  If that slot's acked flag is down it
retransmits exactly the packet buffered there (one channel send) and
rearms the timer, recording the resend; if the flag is up it is a no-op.
In every reachable state with `windowcount > 0` the base slot is
unacknowledged and holds the oldest outstanding packet, so the handler
then retransmits exactly that packet. -/
theorem C4_amended_base_slot_retransmit (s : SenderState) :
    (s.acked (nidx s.send_base) = true → A_timerinterrupt s = (s, [])) ∧
    (s.acked (nidx s.send_base) = false →
      (A_timerinterrupt s).2
        = [AOut.tolayer3 (s.buffer (nidx s.send_base)), AOut.starttimer] ∧
      (A_timerinterrupt s).1
        = { s with packets_resent := s.packets_resent + 1, timer_running := true }) ∧
    (AReach s → 0 < s.windowcount →
      (A_timerinterrupt s).2
        = [AOut.tolayer3 (s.buffer (nidx s.send_base)), AOut.starttimer]) := by
  refine ⟨fun h => A_timerinterrupt_acked s h, fun h => ?_, fun hr hw => ?_⟩
  · rw [A_timerinterrupt_resend s h]
    exact ⟨rfl, rfl⟩
  · have hflag := (AReach_inv s hr).2.2.2.2 hw
    rw [A_timerinterrupt_resend s hflag]

theorem C4_amended_base_slot_retransmit_witness :
    A_timerinterrupt A_init = (A_init, []) :=
  (C4_amended_base_slot_retransmit A_init).1 (by decide)

/-- C6: a corrupted ACK is discarded with no state change whatsoever — no
field of the sender state moves, not even a counter, and nothing is handed
to the channel or the timer. -/
theorem C6_corrupted_ack_ignored (p : Pkt) (s : SenderState) (h : IsCorrupted p = true) :
    A_input p s = (s, []) := by
  rw [A_input, if_pos h]

theorem C6_corrupted_ack_ignored_witness :
    A_input badPkt A_init = (A_init, []) :=
  C6_corrupted_ack_ignored badPkt A_init (by decide)

/-- C7: on a corrupted data packet the receiver delivers nothing, leaves
`rcv_base`, the buffer and the received flags untouched, and emits an
acknowledgment carrying `acknum = rcv_base - 1` mod `SEQSPACE`
(i.e. `SEQSPACE - 1` when `rcv_base = 0`), here written `(rcv_base + 11) % 12`. -/
theorem C7_corrupted_data_ack (p : Pkt) (s : ReceiverState) (h : IsCorrupted p = true)
    (hb : s.rcv_base < 12) :
    (B_input p s).2.2.length = 1 ∧
    (∀ q ∈ (B_input p s).2.2, q.acknum = (((s.rcv_base + 11) % 12 : Nat) : Int)) ∧
    (B_input p s).2.1 = [] ∧
    (B_input p s).1.rcv_base = s.rcv_base ∧
    (B_input p s).1.rcv_buffer = s.rcv_buffer ∧
    (B_input p s).1.rcv_acked = s.rcv_acked := by
  rw [B_input_corrupted_eq p s h]
  refine ⟨rfl, ?_, rfl, rfl, rfl, rfl⟩
  intro q hq
  simp only [List.mem_singleton] at hq
  subst hq
  show (if s.rcv_base = 0 then (11 : Int) else (s.rcv_base : Int) - 1) = _
  split
  · omega
  · omega

theorem C7_corrupted_data_ack_witness :
    (B_input badPkt B_init).2.1 = [] ∧
      ∀ q ∈ (B_input badPkt B_init).2.2, q.acknum = ((11 : Nat) : Int) :=
  ⟨(C7_corrupted_data_ack badPkt B_init (by decide) (by decide)).2.2.1,
   (C7_corrupted_data_ack badPkt B_init (by decide) (by decide)).2.1⟩

/-- C5: an uncorrupted, not-yet-acknowledged ACK for `send_base` slides the
window through the whole contiguous run of acknowledged slots: there is a
slide length `k ≥ 1` such that `send_base` advances by `k` mod 12,
`windowcount` drops by `k`, every slot passed had its flag up beforehand
(beyond the slot just acknowledged) and has it cleared afterwards, and the
loop stops exactly when `windowcount` hits zero or at the first
unacknowledged slot. -/
theorem C5_window_slide (s : SenderState) (p : Pkt)
    (h1 : IsCorrupted p = false) (h2 : p.acknum = (s.send_base : Int))
    (h3 : s.acked (nidx s.send_base) = false) (hb : s.send_base < 12)
    (hw1 : 1 ≤ s.windowcount) (hw6 : s.windowcount ≤ 6) :
    ∃ k : Nat, 1 ≤ k ∧ (k : Int) ≤ s.windowcount ∧
      (A_input p s).1.send_base = (s.send_base + k) % 12 ∧
      (A_input p s).1.windowcount = s.windowcount - k ∧
      (∀ j : Nat, 1 ≤ j → j < k → s.acked (nidx (s.send_base + j)) = true) ∧
      (∀ j : Nat, j < k → (A_input p s).1.acked (nidx (s.send_base + j)) = false) ∧
      ((k : Int) = s.windowcount ∨ (k < 6 ∧ s.acked (nidx (s.send_base + k)) = false)) := by
  have hin : in_window s.send_base p.acknum = true := by
    rw [h2]
    exact in_window_self _ hb
  have hidx : idx p.acknum = nidx s.send_base := by
    rw [h2, idx_coe]
  have hdup : s.acked (idx p.acknum) = false := by
    rw [hidx]
    exact h3
  rw [A_input_new_base p s h1 hin hdup h2]
  dsimp only
  obtain ⟨k, heq, hkle, hkpos, hrun, hstop, hwcle⟩ :=
    slide_spec (Function.update s.acked (idx p.acknum) true) s.send_base s.windowcount hb
  have hfl2base : Function.update s.acked (idx p.acknum) true (nidx s.send_base) = true := by
    rw [hidx, Function.update_same]
  have hk1 : 1 ≤ k := hkpos hfl2base
  have hkw : (k : Int) ≤ s.windowcount := hwcle hw1
  have hk6 : k ≤ 6 := le_trans hkle (countTrue_le_six _)
  have hrun' : ∀ j : Nat, 1 ≤ j → j < k → s.acked (nidx (s.send_base + j)) = true := by
    intro j hj1 hjk
    have h := hrun j hjk
    have hne : nidx (s.send_base + j) ≠ idx p.acknum := by
      rw [hidx]
      simp only [nidx, Ne, Fin.ext_iff]
      omega
    rwa [Function.update_noteq hne] at h
  have hcleared : ∀ j : Nat, j < k →
      clearRun (Function.update s.acked (idx p.acknum) true) s.send_base k
        (nidx (s.send_base + j)) = false :=
    fun j hj => clearRun_cleared _ _ _ _ hj
  have hstop' : (k : Int) = s.windowcount ∨ (k < 6 ∧ s.acked (nidx (s.send_base + k)) = false) := by
    rcases hstop with hz | hcl
    · exact Or.inl (by omega)
    · by_cases hk6' : k < 6
      · refine Or.inr ⟨hk6', ?_⟩
        have hslot : nidx ((s.send_base + k) % 12) = nidx (s.send_base + k) := by
          simp only [nidx, Fin.mk.injEq]
          omega
        rw [hslot] at hcl
        have huntouched : clearRun (Function.update s.acked (idx p.acknum) true) s.send_base k
            (nidx (s.send_base + k))
            = Function.update s.acked (idx p.acknum) true (nidx (s.send_base + k)) := by
          refine clearRun_untouched _ _ _ _ hk6 ?_
          intro i hi
          simp only [nidx]
          omega
        rw [huntouched] at hcl
        have hne : nidx (s.send_base + k) ≠ idx p.acknum := by
          rw [hidx]
          simp only [nidx, Ne, Fin.ext_iff]
          omega
        rwa [Function.update_noteq hne] at hcl
      · exact Or.inl (by omega)
  by_cases hpos : (0 : Int) < s.windowcount - k
  · rw [heq, if_pos hpos]
    exact ⟨k, hk1, hkw, rfl, rfl, hrun', hcleared, hstop'⟩
  · rw [heq, if_neg hpos]
    exact ⟨k, hk1, hkw, rfl, rfl, hrun', hcleared, hstop'⟩

/-- A sender state with two outstanding packets, the second already
acknowledged: the ACK for the base then slides the window by two. -/
def c5state : SenderState :=
  { A_init with windowcount := 2, send_base := 0, A_nextseqnum := 2
                acked := fun j => if (j : Nat) = 1 then true else false }

theorem C5_window_slide_witness :
    ∃ k : Nat, 1 ≤ k ∧ (k : Int) ≤ c5state.windowcount ∧
      (A_input (ackPktFor 0) c5state).1.send_base = (c5state.send_base + k) % 12 ∧
      (A_input (ackPktFor 0) c5state).1.windowcount = c5state.windowcount - k ∧
      (∀ j : Nat, 1 ≤ j → j < k → c5state.acked (nidx (c5state.send_base + j)) = true) ∧
      (∀ j : Nat, j < k →
        (A_input (ackPktFor 0) c5state).1.acked (nidx (c5state.send_base + j)) = false) ∧
      ((k : Int) = c5state.windowcount ∨
        (k < 6 ∧ c5state.acked (nidx (c5state.send_base + k)) = false)) :=
  C5_window_slide c5state (ackPktFor 0) (by decide) (by decide) (by decide) (by decide)
    (by decide) (by decide)

/-- Equality of sender states up to the four statistics counters
(`window_full`, `total_ACKs_received`, `new_ACKs`, `packets_resent`). -/
def eqUpToCounters (s t : SenderState) : Prop :=
  s.buffer = t.buffer ∧ s.acked = t.acked ∧ s.send_base = t.send_base ∧
  s.A_nextseqnum = t.A_nextseqnum ∧ s.windowcount = t.windowcount ∧
  s.timer_running = t.timer_running

theorem A_input_outside_eqUp (p : Pkt) (t : SenderState) (h1 : IsCorrupted p = false)
    (hout : in_window t.send_base p.acknum = false) :
    eqUpToCounters (A_input p t).1 t ∧ (A_input p t).2 = [] := by
  rw [A_input_outside p t h1 hout]
  exact ⟨⟨rfl, rfl, rfl, rfl, rfl, rfl⟩, rfl⟩

theorem A_input_dup_eqUp (p : Pkt) (t : SenderState) (h1 : IsCorrupted p = false)
    (hin : in_window t.send_base p.acknum = true) (hdup : t.acked (idx p.acknum) = true) :
    eqUpToCounters (A_input p t).1 t ∧ (A_input p t).2 = [] := by
  rw [A_input_dup p t h1 hin hdup]
  exact ⟨⟨rfl, rfl, rfl, rfl, rfl, rfl⟩, rfl⟩

/-- C8: duplicate ACK handling is idempotent.  An in-window ACK whose slot
is already marked acknowledged changes nothing but the
`total_ACKs_received` counter and triggers no timer action; and for any
uncorrupted in-range ACK applied twice in a row, the second application
leaves the sender state exactly as the first left it — up to the
statistics counters — and performs no channel or timer call. -/
theorem C8_duplicate_ack_idempotent (s : SenderState) (p : Pkt)
    (h1 : IsCorrupted p = false) (h2 : 0 ≤ p.acknum) (h3 : p.acknum < 12)
    (hb : s.send_base < 12) :
    (in_window s.send_base p.acknum = true → s.acked (idx p.acknum) = true →
      A_input p s = ({ s with total_ACKs_received := s.total_ACKs_received + 1 }, [])) ∧
    eqUpToCounters (A_input p (A_input p s).1).1 (A_input p s).1 ∧
    (A_input p (A_input p s).1).2 = [] := by
  refine ⟨fun hin hdup => A_input_dup p s h1 hin hdup, ?_⟩
  by_cases hin : in_window s.send_base p.acknum = true
  · by_cases hdup : s.acked (idx p.acknum) = true
    · have hst : (A_input p s).1 = { s with total_ACKs_received := s.total_ACKs_received + 1 } := by
        rw [A_input_dup p s h1 hin hdup]
      have hin2 : in_window (A_input p s).1.send_base p.acknum = true := by
        rw [hst]
        exact hin
      have hdup2 : (A_input p s).1.acked (idx p.acknum) = true := by
        rw [hst]
        exact hdup
      exact A_input_dup_eqUp p _ h1 hin2 hdup2
    · have hdup' : s.acked (idx p.acknum) = false := by
        cases h : s.acked (idx p.acknum)
        · rfl
        · exact absurd h hdup
      by_cases hbase : p.acknum = (s.send_base : Int)
      · obtain ⟨k, heq, hkle, hkpos, hrun, hstop, hwcle⟩ :=
          slide_spec (Function.update s.acked (idx p.acknum) true) s.send_base s.windowcount hb
        have hk1 : 1 ≤ k := hkpos (by rw [hbase, idx_coe]; exact Function.update_same _ _ _)
        have hk6 : k ≤ 6 := le_trans hkle (countTrue_le_six _)
        have hsb : (A_input p s).1.send_base = (s.send_base + k) % 12 := by
          rw [A_input_new_base p s h1 hin hdup' hbase]
          dsimp only
          rw [heq]
          by_cases hpos : (0 : Int) < s.windowcount - k
          · rw [if_pos hpos]
          · rw [if_neg hpos]
        have hout2 : in_window (A_input p s).1.send_base p.acknum = false := by
          rw [hsb]
          cases hc : in_window ((s.send_base + k) % 12) p.acknum
          · rfl
          · exfalso
            obtain ⟨j, hj6, hjval⟩ := (in_window_iff _ _ (by omega) h2 h3).mp hc
            omega
        exact A_input_outside_eqUp p _ h1 hout2
      · have hst : (A_input p s).1 =
            { s with total_ACKs_received := s.total_ACKs_received + 1
                     new_ACKs := s.new_ACKs + 1
                     acked := Function.update s.acked (idx p.acknum) true } := by
          rw [A_input_new_other p s h1 hin hdup' hbase]
        have hin2 : in_window (A_input p s).1.send_base p.acknum = true := by
          rw [hst]
          exact hin
        have hdup2 : (A_input p s).1.acked (idx p.acknum) = true := by
          rw [hst]
          exact Function.update_same _ _ _
        exact A_input_dup_eqUp p _ h1 hin2 hdup2
  · have hin' : in_window s.send_base p.acknum = false := by
      cases h : in_window s.send_base p.acknum
      · rfl
      · exact absurd h hin
    have hst : (A_input p s).1 = { s with total_ACKs_received := s.total_ACKs_received + 1 } := by
      rw [A_input_outside p s h1 hin']
    have hout2 : in_window (A_input p s).1.send_base p.acknum = false := by
      rw [hst]
      exact hin'
    exact A_input_outside_eqUp p _ h1 hout2

theorem C8_duplicate_ack_idempotent_witness :
    eqUpToCounters (A_input (ackPktFor 0) (A_input (ackPktFor 0) A_init).1).1
        (A_input (ackPktFor 0) A_init).1 ∧
      (A_input (ackPktFor 0) (A_input (ackPktFor 0) A_init).1).2 = [] :=
  (C8_duplicate_ack_idempotent A_init (ackPktFor 0) (by decide) (by decide) (by decide)
    (by decide)).2

/-- C9, counterexample to the claim as stated: the claim quantifies over
every sequence of `A_output`/`A_input`/`A_timerinterrupt` events, and the
window-slide loop only breaks when `windowcount` hits exactly zero.  After
sending and ACKing packets 0-5 the acked flags are all stale-false; two
uncorrupted in-window ACKs for the never-sent sequence numbers 7 and then
6 mark two flags and make the slide loop run twice starting from
`windowcount = 0`, driving it to -2 < 0. -/
theorem C9_counterexample : AReach c9state ∧ c9state.windowcount = -2 :=
  ⟨AReach_runA c9evs A_init AReach.init (by decide), by decide⟩

/-- C9, amended: `windowcount ≤ WINDOWSIZE` holds in every reachable
sender state; the lower bound `0 ≤ windowcount` additionally holds
whenever every processed uncorrupted in-window ACK acknowledges a
currently outstanding sequence number (which is the case in every closed
run, since the receiver only acknowledges packets the sender sent); and
the receiver's number of buffered-but-undelivered slots never exceeds
`WINDOWSIZE`. -/
theorem C9_amended_window_bounds :
    (∀ s : SenderState, AReach s → s.windowcount ≤ 6) ∧
    (∀ s : SenderState, GoodAReach s → 0 ≤ s.windowcount ∧ s.windowcount ≤ 6) ∧
    (∀ t : ReceiverState, countTrue t.rcv_acked ≤ 6) :=
  ⟨fun s hs => (AReach_inv s hs).2.2.2.1,
   fun s hs => (GoodAReach_inv s hs).2,
   fun t => countTrue_le_six t.rcv_acked⟩

theorem C9_amended_window_bounds_witness :
    0 ≤ A_init.windowcount ∧ A_init.windowcount ≤ 6 :=
  C9_amended_window_bounds.2.1 A_init GoodAReach.init

/-- C10: in every reachable sender state with at least one outstanding
packet, the slot at `send_base % WINDOWSIZE` is unacknowledged — the
premise under which `A_timerinterrupt` may retransmit the base slot
unconditionally. -/
theorem C10_base_slot_unacked (s : SenderState) (h : AReach s) (hw : 0 < s.windowcount) :
    s.acked (nidx s.send_base) = false :=
  (AReach_inv s h).2.2.2.2 hw

theorem C10_base_slot_unacked_witness :
    (runA A_init [AEv.output zmsg]).acked (nidx (runA A_init [AEv.output zmsg]).send_base)
      = false :=
  C10_base_slot_unacked (runA A_init [AEv.output zmsg])
    (AReach_runA [AEv.output zmsg] A_init AReach.init (by decide)) (by decide)
